import Mathlib

/-!
Shallow embedding of `scripts/gen_figs_specialization_gain.py`: a pipeline
that reads line-delimited JSON metric logs, normalizes records, aggregates
accuracy per (family, model_role, routing_mode) group, and renders LaTeX
callout macros, a LaTeX table and two bar-chart data series.

Python scalar values appearing in the relevant JSON fields are modelled by
`JVal` (null, boolean, string, integer); Python's truthiness and the
`x or y` operator are modelled by `JVal.truthy` and `pyOr`.  A JSON object
is modelled as an association list; `dict.get(k)` returning `None` for an
absent key coincides with a key explicitly bound to JSON `null`, exactly
as in Python where both give the object `None`.  Accuracies (floats
arising as means of 0/1 values) are modelled as rationals, and the
`"{:.1f}"` format as rounding to the nearest tenth, ties to even.
-/

/-- A JSON scalar value as seen by the Python code. -/
inductive JVal where
  | null
  | bool (b : Bool)
  | str (s : String)
  | int (n : Int)
deriving DecidableEq

/-- Python truthiness of a value: `None`, `False`, `""` and `0` are falsy. -/
def JVal.truthy : JVal → Bool
  | .null => false
  | .bool b => b
  | .str s => s ≠ ""
  | .int n => n ≠ 0

/-- Python's `a or b`: returns `a` when `a` is truthy, else `b`. -/
def pyOr (a b : JVal) : JVal := if a.truthy then a else b

/-- Python's `str()` applied to a scalar. -/
def JVal.pyStr : JVal → String
  | .null => "None"
  | .bool true => "True"
  | .bool false => "False"
  | .str s => s
  | .int n => toString n

/-- Python's `str.lower()` (ASCII case folding, which is all the pipeline
relies on). -/
def strLower (s : String) : String := ⟨s.data.map Char.toLower⟩

/-- `data.get(k)`: the value bound to key `k`, or `null` when the key is
absent (Python returns `None` in both cases). -/
def jget (data : List (String × JVal)) (k : String) : JVal :=
  match data.lookup k with
  | some v => v
  | none => .null

/-- A benign line of a metrics log file: a line `load_metrics` survives.
`bad` covers a blank line or a line that is not valid JSON (both are
skipped by the reader); `record` is a parsed JSON object whose `data`
key is absent or bound to a JSON object (an absent `data` key is the
empty object, matching `obj.get("data", {})`).  A line that is valid
JSON but not an object, and a study-matching object whose `data` value
is present and not an object, crash `load_metrics` with an uncaught
`AttributeError`; those inputs are modelled by `RawLine` below, into
which `LogLine` embeds via `RawLine.ofLogLine`. -/
inductive LogLine where
  | bad
  | record (study : JVal) (data : List (String × JVal))
deriving DecidableEq

/-- A `NormalizedObservation`: the fixed-shape record appended to
`records` by `load_metrics`. -/
structure Obs where
  family : String
  model_role : String
  routing_mode : String
  correct : Bool
deriving DecidableEq

/-- The per-line body of the `load_metrics` loop: study filtering, field
fallback via Python `or`, the completeness check and normalization.
Returns `none` when the line is skipped. -/
def extractOne (study : String) : LogLine → Option Obs
  | .bad => none
  | .record st data =>
    if st ≠ .str study then none
    else
      let family := pyOr (jget data "family") (jget data "true_family")
      let role := pyOr (jget data "model_role") (jget data "role")
      let routing := pyOr (pyOr (jget data "routing_mode") (jget data "routing")) (.str "none")
      let correct := jget data "correct"
      if family = .null ∨ role = .null ∨ correct = .null then none
      else some { family := strLower family.pyStr,
                  model_role := strLower role.pyStr,
                  routing_mode := strLower routing.pyStr,
                  correct := correct.truthy }

/-- All observations extracted from one file, in line order. -/
def extractFile (study : String) (lines : List LogLine) : List Obs :=
  lines.filterMap (extractOne study)

/-- `load_metrics` restricted to benign corpora (no `AttributeError`
inputs, which `LogLine` cannot express): fatal (`SystemExit`) when no
files matched the glob or when no usable records remain; otherwise the
concatenated observations of the matched files in sorted-path order (the
file list argument).  The full behaviour including the crash path is
`rawLoadMetrics` below; on benign corpora the two agree
(`rawLoadMetrics_ofLogLine`). -/
def loadMetrics (files : List (List LogLine)) (study : String) :
    Except String (List Obs) :=
  if files.isEmpty then
    .error "No metric files found"
  else
    let recs := files.flatMap (extractFile study)
    if recs.isEmpty then
      .error "No records found for study"
    else
      .ok recs

/-- The routing-mode filtering step at the top of `summarize`.  Returns the
surviving observations and whether the no-match warning was printed.
The `df ≠ []` conjunct models the `"routing_mode" in df.columns` guard:
a frame built from a non-empty record list always has the column. -/
def routingFilter (df : List Obs) (rm : String) : List Obs × Bool :=
  if rm ≠ "" ∧ df ≠ [] then
    if df.any (fun o => strLower o.routing_mode = strLower rm) then
      (df.filter (fun o => strLower o.routing_mode = strLower rm), false)
    else
      (df, true)
  else
    (df, false)

/-- A grouping key: (family, model_role, routing_mode). -/
abbrev GroupKey := String × String × String

/-- The grouping key of an observation. -/
def Obs.key (o : Obs) : GroupKey := (o.family, o.model_role, o.routing_mode)

/-- Lexicographic order on grouping keys, as `pandas.groupby` sorts its
groups. -/
def keyLE (a b : GroupKey) : Prop :=
  a.1 < b.1 ∨ (a.1 = b.1 ∧ (a.2.1 < b.2.1 ∨ (a.2.1 = b.2.1 ∧ a.2.2 ≤ b.2.2)))

instance : DecidableRel keyLE := fun a b => by
  unfold keyLE; infer_instance

/-- One row of the aggregated summary. -/
structure AggRow where
  family : String
  model_role : String
  routing_mode : String
  n : Nat
  accuracy : ℚ
deriving DecidableEq

/-- The grouping key of a summary row. -/
def AggRow.key (r : AggRow) : GroupKey := (r.family, r.model_role, r.routing_mode)

/-- The `groupby(...).agg(n=size, accuracy=mean).reset_index()` step: one
row per distinct key, keys in ascending lexicographic order (`groupby`
sorts group keys; the subsequent `sort_values(["family", "model_role"])`
re-sorts by a prefix of the same key and leaves this order), with `n` the
group size and `accuracy` the mean of the boolean `correct` values. -/
def groupRows (df : List Obs) : List AggRow :=
  (List.insertionSort keyLE (df.map Obs.key).dedup).map fun k =>
    let g := df.filter (fun o => o.key = k)
    { family := k.1, model_role := k.2.1, routing_mode := k.2.2,
      n := g.length,
      accuracy := (g.countP (·.correct) : ℚ) / (g.length : ℚ) }

/-- `summarize`: routing-mode filtering followed by grouping. -/
def summarize (df : List Obs) (rm : String) : List AggRow :=
  groupRows (routingFilter df rm).1

/-- Round a rational to the nearest integer, ties to even — the behaviour
of Python's fixed-point float formatting at a representable midpoint. -/
def rhe (q : ℚ) : Int :=
  let f := ⌊q⌋
  let r := q - (f : ℚ)
  if r < 1/2 then f
  else if 1/2 < r then f + 1
  else if f % 2 = 0 then f else f + 1

/-- `"{:.1f}".format(x)`: the signed decimal rendering of `x` rounded to
one decimal place. -/
def fmt1 (q : ℚ) : String :=
  let n := rhe (10 * q)
  (if n < 0 then "-" else "") ++ toString (n.natAbs / 10) ++ "." ++ toString (n.natAbs % 10)

/-- The `family_to_macro` mapping of `write_callouts_tex`, in insertion
(= iteration) order. -/
def knownFamilies : List (String × String) :=
  [("psk", "PSK"), ("qam", "QAM"), ("analog", "Analog")]

/-- One emitted line `\newcommand{\<pre><tail>}{<val>}`. -/
def newcommandLine (pre tail val : String) : String :=
  "\\newcommand\x7b\\" ++ pre ++ tail ++ "\x7d\x7b" ++ val ++ "\x7d"

/-- The loop body of `write_callouts_tex` for one mapping entry: the three
macro lines for a family present in both roles, else nothing. -/
def calloutsFor (summary : List AggRow) (fam lab : String) : List String :=
  let sub := summary.filter (fun r => r.family = fam)
  if sub.isEmpty then []
  else
    let gen := sub.filter (fun r => r.model_role = "generalist")
    let spc := sub.filter (fun r => r.model_role = "specialist")
    match gen.head?, spc.head? with
    | some g, some s =>
      let genAcc := g.accuracy
      let spcAcc := s.accuracy
      let gain := (spcAcc - genAcc) * 100
      [newcommandLine lab "GeneralistAcc" (fmt1 (genAcc * 100)),
       newcommandLine lab "SpecialistAcc" (fmt1 (spcAcc * 100)),
       newcommandLine lab "Gain" (fmt1 gain)]
    | _, _ => []

/-- The line list of `specialization_callouts.tex`: the concatenated
per-family macros, or the placeholder comment when none qualified. -/
def calloutLines (summary : List AggRow) : List String :=
  let ls := knownFamilies.flatMap (fun p => calloutsFor summary p.1 p.2)
  if ls.isEmpty then
    ["% No specialization callouts available; generated empty file."]
  else ls

/-- The full byte content written to `specialization_callouts.tex`. -/
def calloutsFileContent (summary : List AggRow) : String :=
  String.intercalate "\n" (calloutLines summary) ++ "\n"

/-- One data row of `specialization_table.tex`. -/
def tableRowLine (r : AggRow) : String :=
  "    " ++ r.family ++ " & " ++ r.model_role ++ " & " ++ r.routing_mode
    ++ " & " ++ fmt1 (r.accuracy * 100) ++ " & " ++ toString r.n ++ " \\\\"

/-- The line list of `specialization_table.tex`: fixed boilerplate around
one serialized row per summary row, in summary order, no filtering. -/
def tableLines (summary : List AggRow) : List String :=
  ["\\begin\x7btable\x7d[t]",
   "  \\centering",
   "  \\caption\x7bGeneralist vs specialist accuracy per modulation family.\x7d",
   "  \\label\x7btab:specialization-results\x7d",
   "  \\begin\x7btabular\x7d\x7bllllr\x7d",
   "    \\toprule",
   "    Family & Role & Routing & Acc (\\%) & $N$ \\\\",
   "    \\midrule"]
  ++ summary.map tableRowLine
  ++ ["    \\bottomrule",
      "  \\end\x7btabular\x7d",
      "\\end\x7btable\x7d",
      ""]

/-- The full byte content written to `specialization_table.tex`. -/
def tableFileContent (summary : List AggRow) : String :=
  String.intercalate "\n" (tableLines summary)

/-- `sorted(summary["family"].unique())`: the distinct families in
ascending order. -/
def sortedFamilies (summary : List AggRow) : List String :=
  List.insertionSort (fun a b : String => a ≤ b) (summary.map (·.family)).dedup

/-- The accuracy (×100) that `plot_specialization_gain` puts in the bar
matrix for one (family, role) cell: the first matching row, or a NaN gap
(`none`) when the pair is absent. -/
def roleAcc (summary : List AggRow) (fam role : String) : Option ℚ :=
  match (summary.filter (fun r => r.family = fam ∧ r.model_role = role)).head? with
  | some r => some (r.accuracy * 100)
  | none => none

/-- The data series of the grouped-bar chart: per sorted family, the
generalist and specialist accuracy percentages (gaps as `none`). -/
def accMatrix (summary : List AggRow) : List (String × Option ℚ × Option ℚ) :=
  (sortedFamilies summary).map fun fam =>
    (fam, roleAcc summary fam "generalist", roleAcc summary fam "specialist")

/-- The delta that `plot_family_delta` computes for one family:
`(specialist − generalist) × 100` from the first row of each role, or a
NaN gap (`none`) when either role is missing. -/
def familyDelta (summary : List AggRow) (fam : String) : Option ℚ :=
  let sub := summary.filter (fun r => r.family = fam)
  let gen := sub.filter (fun r => r.model_role = "generalist")
  let spc := sub.filter (fun r => r.model_role = "specialist")
  match gen.head?, spc.head? with
  | some g, some s => some ((s.accuracy - g.accuracy) * 100)
  | _, _ => none

/-- The data series of the gain bar chart, per sorted family. -/
def familyDeltas (summary : List AggRow) : List (String × Option ℚ) :=
  (sortedFamilies summary).map fun fam => (fam, familyDelta summary fam)

/-- The four artifacts a successful run writes: the two chart data series
and the two TeX files. -/
structure Artifacts where
  gainChart : List (String × Option ℚ × Option ℚ)
  deltaChart : List (String × Option ℚ)
  calloutsTex : String
  tableTex : String
deriving DecidableEq

/-- The artifacts rendered from one summary. -/
def renderAll (summary : List AggRow) : Artifacts :=
  { gainChart := accMatrix summary,
    deltaChart := familyDeltas summary,
    calloutsTex := calloutsFileContent summary,
    tableTex := tableFileContent summary }

/-- `main`: load, summarize, render.  `SystemExit` from `load_metrics`
propagates as the error case (non-zero exit, nothing written). -/
def runPipeline (files : List (List LogLine)) (study rm : String) :
    Except String Artifacts :=
  match loadMetrics files study with
  | .error e => .error e
  | .ok df => .ok (renderAll (summarize df rm))

/-- The TeX outputs on disk (`none` = file absent). -/
structure TexFS where
  calloutsFile : Option String
  tableFile : Option String
deriving DecidableEq

/-- One invocation's effect on the TeX outputs: a successful run
overwrites both files wholesale; a fatal stop writes nothing. -/
def runOnFS (fs : TexFS) (files : List (List LogLine)) (study rm : String) : TexFS :=
  match runPipeline files study rm with
  | .ok a => { calloutsFile := some a.calloutsTex, tableFile := some a.tableTex }
  | .error _ => fs

/-- An arbitrary line of a metrics log file, including the inputs on
which `load_metrics` dies with an uncaught `AttributeError`:
* `bad` — blank or invalid JSON, skipped by the reader;
* `nonObject v` — valid JSON that is not an object (e.g. `[]` or `5`);
  `obj.get("study")` then raises `AttributeError` (the carried scalar is
  illustrative: the crash does not depend on the value, so a JSON array
  is represented no more precisely than any other non-object);
* `objDict st data` — an object whose `data` key is absent or bound to
  an object, the benign shape of `LogLine.record`;
* `objNonDict st v` — an object whose `data` key is present with a
  non-object value (`null`, boolean, string, number or array);
  `data.get("family")` raises `AttributeError`, but only when the study
  matches, since the study check `continue`s first. -/
inductive RawLine where
  | bad
  | nonObject (v : JVal)
  | objDict (study : JVal) (data : List (String × JVal))
  | objNonDict (study : JVal) (v : JVal)
deriving DecidableEq

/-- What the `load_metrics` loop body does with one line: skip it, append
an observation, or raise `AttributeError`. -/
inductive LineOutcome where
  | skip
  | obs (o : Obs)
  | crash
deriving DecidableEq

/-- The per-line body of the `load_metrics` loop on an arbitrary line,
delegating the benign object case to `extractOne`. -/
def rawExtract (study : String) : RawLine → LineOutcome
  | .bad => .skip
  | .nonObject _ => .crash
  | .objDict st data =>
    match extractOne study (.record st data) with
    | some o => .obs o
    | none => .skip
  | .objNonDict st _ =>
    if st ≠ .str study then .skip
    else .crash

/-- One file's lines in order: the collected observations, or the error
of the first crashing line (the uncaught exception aborts the whole
program, so nothing is produced). -/
def rawExtractLines (study : String) : List RawLine → Except String (List Obs)
  | [] => .ok []
  | l :: ls =>
    match rawExtract study l with
    | .crash => .error "AttributeError"
    | .skip => rawExtractLines study ls
    | .obs o =>
      match rawExtractLines study ls with
      | .error e => .error e
      | .ok os => .ok (o :: os)

/-- All files in sorted-path order, aborting at the first crash. -/
def rawExtractFiles (study : String) : List (List RawLine) → Except String (List Obs)
  | [] => .ok []
  | f :: fs =>
    match rawExtractLines study f with
    | .error e => .error e
    | .ok xs =>
      match rawExtractFiles study fs with
      | .error e => .error e
      | .ok ys => .ok (xs ++ ys)

/-- `load_metrics` on arbitrary input: fatal when no files matched
(`SystemExit`), when a line raises `AttributeError`, or when no usable
records remain (`SystemExit`). -/
def rawLoadMetrics (files : List (List RawLine)) (study : String) :
    Except String (List Obs) :=
  if files.isEmpty then
    .error "No metric files found"
  else
    match rawExtractFiles study files with
    | .error e => .error e
    | .ok recs =>
      if recs.isEmpty then
        .error "No records found for study"
      else
        .ok recs

/-- `main` over arbitrary input lines: any uncaught error means a
non-zero exit with nothing written. -/
def rawRunPipeline (files : List (List RawLine)) (study rm : String) :
    Except String Artifacts :=
  match rawLoadMetrics files study with
  | .error e => .error e
  | .ok df => .ok (renderAll (summarize df rm))

/-- The embedding of benign lines into arbitrary lines. -/
def RawLine.ofLogLine : LogLine → RawLine
  | .bad => .bad
  | .record st data => .objDict st data

/-- Helper: the bad-line case of `extractOne` yields nothing. -/
theorem extractOne_bad (study : String) : extractOne study LogLine.bad = none := rfl

/-- C9: a blank or non-JSON line interleaved anywhere in any log file
neither aborts the run nor changes any artifact: the whole pipeline gives
the same result with and without the bad line. -/
theorem badLine_preserves_pipeline (fs1 fs2 : List (List LogLine))
    (a b : List LogLine) (study rm : String) :
    runPipeline (fs1 ++ (a ++ LogLine.bad :: b) :: fs2) study rm
      = runPipeline (fs1 ++ (a ++ b) :: fs2) study rm := by
  have hf : extractFile study (a ++ LogLine.bad :: b) = extractFile study (a ++ b) := by
    simp [extractFile, List.filterMap_append, List.filterMap_cons, extractOne_bad]
  simp [runPipeline, loadMetrics, hf]

/-- C10: re-running the pipeline with identical arguments on the same
input leaves the TeX outputs byte-identical: one more run is a no-op on
the file system. -/
theorem rerun_tex_idempotent (fs : TexFS) (files : List (List LogLine))
    (study rm : String) :
    runOnFS (runOnFS fs files study rm) files study rm = runOnFS fs files study rm := by
  cases h : runPipeline files study rm <;> simp [runOnFS, h]

/-- Helper: when both role filters of a family have a first row, the
callout loop body emits exactly the three macros built from those two
rows. -/
theorem calloutsFor_of_heads (summary : List AggRow) (fam lab : String) (g s : AggRow)
    (hg : ((summary.filter (fun r => r.family = fam)).filter
        (fun r => r.model_role = "generalist")).head? = some g)
    (hs : ((summary.filter (fun r => r.family = fam)).filter
        (fun r => r.model_role = "specialist")).head? = some s) :
    calloutsFor summary fam lab =
      [newcommandLine lab "GeneralistAcc" (fmt1 (g.accuracy * 100)),
       newcommandLine lab "SpecialistAcc" (fmt1 (s.accuracy * 100)),
       newcommandLine lab "Gain" (fmt1 ((s.accuracy - g.accuracy) * 100))] := by
  have hsub : (summary.filter (fun r => r.family = fam)).isEmpty = false := by
    cases hsubE : summary.filter (fun r => r.family = fam) with
    | nil => rw [hsubE] at hg; simp at hg
    | cons x xs => simp
  simp at hg hs
  simp [calloutsFor, hsub, hg, hs]

/-- Helper: the gain-chart delta for a family with a first row in each
role. -/
theorem familyDelta_of_heads (summary : List AggRow) (fam : String) (g s : AggRow)
    (hg : ((summary.filter (fun r => r.family = fam)).filter
        (fun r => r.model_role = "generalist")).head? = some g)
    (hs : ((summary.filter (fun r => r.family = fam)).filter
        (fun r => r.model_role = "specialist")).head? = some s) :
    familyDelta summary fam = some ((s.accuracy - g.accuracy) * 100) := by
  simp at hg hs
  simp [familyDelta, hg, hs]

/-- C1: for a mapped family whose summary has a generalist and a
specialist row, the emitted gain macro renders
`(specialist − generalist) × 100` to one decimal, and the two accuracy
macros render the respective accuracies ×100 to one decimal; all three
lines appear in the callouts file line list. -/
theorem callout_macros_correct (summary : List AggRow) (fam lab : String) (g s : AggRow)
    (hmem : (fam, lab) ∈ knownFamilies)
    (hg : ((summary.filter (fun r => r.family = fam)).filter
        (fun r => r.model_role = "generalist")).head? = some g)
    (hs : ((summary.filter (fun r => r.family = fam)).filter
        (fun r => r.model_role = "specialist")).head? = some s) :
    calloutsFor summary fam lab =
      [newcommandLine lab "GeneralistAcc" (fmt1 (g.accuracy * 100)),
       newcommandLine lab "SpecialistAcc" (fmt1 (s.accuracy * 100)),
       newcommandLine lab "Gain" (fmt1 ((s.accuracy - g.accuracy) * 100))] ∧
    ∀ l ∈ calloutsFor summary fam lab, l ∈ calloutLines summary := by
  refine ⟨calloutsFor_of_heads summary fam lab g s hg hs, ?_⟩
  intro l hl
  have hin : l ∈ knownFamilies.flatMap (fun p => calloutsFor summary p.1 p.2) :=
    List.mem_flatMap.mpr ⟨(fam, lab), hmem, hl⟩
  have hne : (knownFamilies.flatMap (fun p => calloutsFor summary p.1 p.2)).isEmpty = false := by
    rcases hE : knownFamilies.flatMap (fun p => calloutsFor summary p.1 p.2) with _ | _
    · rw [hE] at hin; simp at hin
    · simp
  simpa [calloutLines, hne] using hin

/-- C1 witness. -/
theorem callout_macros_correct_witness :
    (("psk", "PSK") ∈ knownFamilies) ∧
    calloutsFor [⟨"psk", "generalist", "oracle", 4, 3/4⟩,
                 ⟨"psk", "specialist", "oracle", 4, 9/10⟩] "psk" "PSK" =
      [newcommandLine "PSK" "GeneralistAcc" (fmt1 ((3/4 : ℚ) * 100)),
       newcommandLine "PSK" "SpecialistAcc" (fmt1 ((9/10 : ℚ) * 100)),
       newcommandLine "PSK" "Gain" (fmt1 (((9/10 : ℚ) - 3/4) * 100))] := by
  refine ⟨by decide, ?_⟩
  exact (callout_macros_correct
    [⟨"psk", "generalist", "oracle", 4, 3/4⟩, ⟨"psk", "specialist", "oracle", 4, 9/10⟩]
    "psk" "PSK" ⟨"psk", "generalist", "oracle", 4, 3/4⟩ ⟨"psk", "specialist", "oracle", 4, 9/10⟩
    (by decide) rfl rfl).1
/-- C8: when the summary holds several rows for a (family, role) pair
(e.g. several routing modes after an empty filter), the callout emitter
and the delta computation read only the first generalist and first
specialist row in summary order: their outputs are built from those two
rows, and any summary agreeing on those first rows — whatever its other
rows — produces identical output. -/
theorem first_rows_only (summary summary' : List AggRow) (fam lab : String) (g s : AggRow)
    (hg : ((summary.filter (fun r => r.family = fam)).filter
        (fun r => r.model_role = "generalist")).head? = some g)
    (hs : ((summary.filter (fun r => r.family = fam)).filter
        (fun r => r.model_role = "specialist")).head? = some s)
    (hg' : ((summary'.filter (fun r => r.family = fam)).filter
        (fun r => r.model_role = "generalist")).head? = some g)
    (hs' : ((summary'.filter (fun r => r.family = fam)).filter
        (fun r => r.model_role = "specialist")).head? = some s) :
    calloutsFor summary fam lab =
      [newcommandLine lab "GeneralistAcc" (fmt1 (g.accuracy * 100)),
       newcommandLine lab "SpecialistAcc" (fmt1 (s.accuracy * 100)),
       newcommandLine lab "Gain" (fmt1 ((s.accuracy - g.accuracy) * 100))] ∧
    familyDelta summary fam = some ((s.accuracy - g.accuracy) * 100) ∧
    calloutsFor summary' fam lab = calloutsFor summary fam lab ∧
    familyDelta summary' fam = familyDelta summary fam := by
  have h1 := calloutsFor_of_heads summary fam lab g s hg hs
  have h2 := calloutsFor_of_heads summary' fam lab g s hg' hs'
  have h3 := familyDelta_of_heads summary fam g s hg hs
  have h4 := familyDelta_of_heads summary' fam g s hg' hs'
  exact ⟨h1, h3, h2.trans h1.symm, h4.trans h3.symm⟩

/-- C8 witness: the `predicted` rows are ignored — dropping them does not
change the callouts or the delta. -/
theorem first_rows_only_witness :
    calloutsFor [⟨"psk", "generalist", "oracle", 4, 3/4⟩,
                 ⟨"psk", "generalist", "predicted", 4, 1/4⟩,
                 ⟨"psk", "specialist", "oracle", 4, 9/10⟩,
                 ⟨"psk", "specialist", "predicted", 4, 1/10⟩] "psk" "PSK" =
      [newcommandLine "PSK" "GeneralistAcc" (fmt1 ((3/4 : ℚ) * 100)),
       newcommandLine "PSK" "SpecialistAcc" (fmt1 ((9/10 : ℚ) * 100)),
       newcommandLine "PSK" "Gain" (fmt1 (((9/10 : ℚ) - 3/4) * 100))] ∧
    familyDelta [⟨"psk", "generalist", "oracle", 4, 3/4⟩,
                 ⟨"psk", "generalist", "predicted", 4, 1/4⟩,
                 ⟨"psk", "specialist", "oracle", 4, 9/10⟩,
                 ⟨"psk", "specialist", "predicted", 4, 1/10⟩] "psk" =
      some (((9/10 : ℚ) - 3/4) * 100) ∧
    calloutsFor [⟨"psk", "generalist", "oracle", 4, 3/4⟩,
                 ⟨"psk", "specialist", "oracle", 4, 9/10⟩] "psk" "PSK" =
      calloutsFor [⟨"psk", "generalist", "oracle", 4, 3/4⟩,
                   ⟨"psk", "generalist", "predicted", 4, 1/4⟩,
                   ⟨"psk", "specialist", "oracle", 4, 9/10⟩,
                   ⟨"psk", "specialist", "predicted", 4, 1/10⟩] "psk" "PSK" ∧
    familyDelta [⟨"psk", "generalist", "oracle", 4, 3/4⟩,
                 ⟨"psk", "specialist", "oracle", 4, 9/10⟩] "psk" =
      familyDelta [⟨"psk", "generalist", "oracle", 4, 3/4⟩,
                   ⟨"psk", "generalist", "predicted", 4, 1/4⟩,
                   ⟨"psk", "specialist", "oracle", 4, 9/10⟩,
                   ⟨"psk", "specialist", "predicted", 4, 1/10⟩] "psk" :=
  first_rows_only
    [⟨"psk", "generalist", "oracle", 4, 3/4⟩, ⟨"psk", "generalist", "predicted", 4, 1/4⟩,
     ⟨"psk", "specialist", "oracle", 4, 9/10⟩, ⟨"psk", "specialist", "predicted", 4, 1/10⟩]
    [⟨"psk", "generalist", "oracle", 4, 3/4⟩, ⟨"psk", "specialist", "oracle", 4, 9/10⟩]
    "psk" "PSK" ⟨"psk", "generalist", "oracle", 4, 3/4⟩ ⟨"psk", "specialist", "oracle", 4, 9/10⟩
    rfl rfl rfl rfl
/-- Helper: with no specialist row for `fam`, the combined specialist
search over the summary finds nothing. -/
theorem find?_specialist_eq_none (summary : List AggRow) (fam : String)
    (hnospec : ∀ r ∈ summary, r.family = fam → r.model_role ≠ "specialist") :
    List.find? (fun a => decide (a.model_role = "specialist") && decide (a.family = fam))
      summary = none := by
  rw [List.find?_eq_none]
  intro a ha
  simp only [Bool.and_eq_true, decide_eq_true_eq, not_and]
  intro h1 h2
  exact hnospec a ha h2 h1

/-- C7: a family present only as generalist is serialized in the full
table (every row is), omitted from the callout macros, a NaN gap in the
delta series; and when no mapped family qualifies at all the callouts
file is the single placeholder comment. -/
theorem generalist_only_family (summary : List AggRow) (fam : String)
    (hgen : ∃ r ∈ summary, r.family = fam ∧ r.model_role = "generalist")
    (hnospec : ∀ r ∈ summary, r.family = fam → r.model_role ≠ "specialist") :
    (∀ r ∈ summary, tableRowLine r ∈ tableLines summary) ∧
    (∀ lab, calloutsFor summary fam lab = []) ∧
    familyDelta summary fam = none ∧
    ((∀ p ∈ knownFamilies, calloutsFor summary p.1 p.2 = []) →
      calloutLines summary =
        ["% No specialization callouts available; generated empty file."]) := by
  have hfind := find?_specialist_eq_none summary fam hnospec
  refine ⟨?_, ?_, ?_, ?_⟩
  · intro r hr
    have hm : tableRowLine r ∈ summary.map tableRowLine := List.mem_map_of_mem _ hr
    unfold tableLines
    exact List.mem_append.mpr (Or.inl (List.mem_append.mpr (Or.inr hm)))
  · intro lab
    by_cases hsub : (summary.filter (fun r => r.family = fam)).isEmpty
    · simp [calloutsFor, hsub]
    · simp only [calloutsFor, hsub]
      simp [hfind]
  · simp [familyDelta, hfind]
  · intro h
    have h1 := h ("psk", "PSK") (by decide)
    have h2 := h ("qam", "QAM") (by decide)
    have h3 := h ("analog", "Analog") (by decide)
    simp only [knownFamilies] at h1 h2 h3 ⊢
    simp [calloutLines, knownFamilies, h1, h2, h3]
/-- C7 witness: a summary whose only family `psk` has just a generalist
row. -/
theorem generalist_only_family_witness :
    (∀ r ∈ [(⟨"psk", "generalist", "oracle", 2, 1/2⟩ : AggRow)],
        tableRowLine r ∈ tableLines [⟨"psk", "generalist", "oracle", 2, 1/2⟩]) ∧
    (∀ lab, calloutsFor [(⟨"psk", "generalist", "oracle", 2, 1/2⟩ : AggRow)] "psk" lab = []) ∧
    familyDelta [(⟨"psk", "generalist", "oracle", 2, 1/2⟩ : AggRow)] "psk" = none ∧
    ((∀ p ∈ knownFamilies,
        calloutsFor [(⟨"psk", "generalist", "oracle", 2, 1/2⟩ : AggRow)] p.1 p.2 = []) →
      calloutLines [(⟨"psk", "generalist", "oracle", 2, 1/2⟩ : AggRow)] =
        ["% No specialization callouts available; generated empty file."]) :=
  generalist_only_family [⟨"psk", "generalist", "oracle", 2, 1/2⟩] "psk"
    ⟨⟨"psk", "generalist", "oracle", 2, 1/2⟩, List.mem_singleton.mpr rfl, rfl, rfl⟩
    (fun r hr hfam => by rw [List.mem_singleton.mp hr]; decide)
/-- C5: with a non-empty observation list and a non-empty filter string,
the Aggregator restricts to exactly the case-insensitively matching
observations when any exist; with no match it keeps all observations
unchanged (never an empty result) and raises the warning flag. -/
theorem routingFilter_soft_fallback (df : List Obs) (rm : String)
    (hdf : df ≠ []) (hrm : rm ≠ "") :
    ((∃ o ∈ df, strLower o.routing_mode = strLower rm) →
      routingFilter df rm =
        (df.filter (fun o => strLower o.routing_mode = strLower rm), false)) ∧
    ((¬ ∃ o ∈ df, strLower o.routing_mode = strLower rm) →
      routingFilter df rm = (df, true) ∧ (routingFilter df rm).1 ≠ []) := by
  have hcond : (rm ≠ "" ∧ df ≠ []) := ⟨hrm, hdf⟩
  constructor
  · intro hex
    have hany : df.any (fun o => strLower o.routing_mode = strLower rm) = true := by
      rw [List.any_eq_true]
      obtain ⟨o, ho, h⟩ := hex
      exact ⟨o, ho, by simpa using h⟩
    simp [routingFilter, hcond, hany]
  · intro hnex
    have hany : df.any (fun o => strLower o.routing_mode = strLower rm) = false := by
      rw [Bool.eq_false_iff, Ne, List.any_eq_true]
      rintro ⟨o, ho, h⟩
      exact hnex ⟨o, ho, by simpa using h⟩
    refine ⟨by simp [routingFilter, hcond, hany], ?_⟩
    simp [routingFilter, hcond, hany, hdf]

/-- C5 witness: a filter value matching no observation (case differences
aside, `predicted` matches nothing in a one-`oracle` list works the same
way) falls back to the whole list with the warning flag. -/
theorem routingFilter_soft_fallback_witness :
    (([(⟨"psk", "generalist", "oracle", true⟩ : Obs)] : List Obs) ≠ []) ∧
    ("predicted" ≠ "") ∧
    ((¬ ∃ o ∈ [(⟨"psk", "generalist", "oracle", true⟩ : Obs)],
        strLower o.routing_mode = strLower "predicted") →
      routingFilter [(⟨"psk", "generalist", "oracle", true⟩ : Obs)] "predicted" =
          ([⟨"psk", "generalist", "oracle", true⟩], true) ∧
        (routingFilter [(⟨"psk", "generalist", "oracle", true⟩ : Obs)] "predicted").1 ≠ []) :=
  ⟨by decide, by decide,
    (routingFilter_soft_fallback [⟨"psk", "generalist", "oracle", true⟩] "predicted"
      (by decide) (by decide)).2⟩
/-- Helper: the keys of the grouped rows are the sorted distinct observed
keys. -/
theorem groupRows_map_key (df : List Obs) :
    (groupRows df).map AggRow.key = List.insertionSort keyLE (df.map Obs.key).dedup := by
  unfold groupRows
  rw [List.map_map]
  have h : (AggRow.key ∘ fun k : GroupKey =>
      ({ family := k.1, model_role := k.2.1, routing_mode := k.2.2,
         n := (df.filter (fun o => o.key = k)).length,
         accuracy := ((df.filter (fun o => o.key = k)).countP (·.correct) : ℚ) /
           ((df.filter (fun o => o.key = k)).length : ℚ) } : AggRow)) = id := by
    funext k
    simp [AggRow.key]
  rw [h, List.map_id]

/-- Helper: the size of one key's group is the key's multiplicity among
the observation keys. -/
theorem length_filter_key (df : List Obs) (k : GroupKey) :
    (df.filter (fun o => o.key = k)).length =
      @List.count GroupKey instBEqOfDecidableEq k (df.map Obs.key) := by
  simp only [List.count, List.countP_map, ← List.countP_eq_length_filter]
  refine List.countP_congr (fun o _ => ?_)
  by_cases h : o.key = k <;> simp [h, Function.comp, instBEqOfDecidableEq]

/-- Helper: the group sizes of `groupRows` sum to the number of grouped
observations. -/
theorem groupRows_sum_n (df : List Obs) :
    ((groupRows df).map (·.n)).sum = df.length := by
  unfold groupRows
  rw [List.map_map]
  have hperm := (List.perm_insertionSort keyLE (df.map Obs.key).dedup).map
    (fun k : GroupKey => (df.filter (fun o => o.key = k)).length)
  calc (List.map _ (List.insertionSort keyLE (df.map Obs.key).dedup)).sum
      = ((df.map Obs.key).dedup.map
          (fun k => (df.filter (fun o => o.key = k)).length)).sum := hperm.sum_eq
    _ = ((df.map Obs.key).dedup.map
          (fun k => @List.count GroupKey instBEqOfDecidableEq k (df.map Obs.key))).sum := by
        exact congrArg List.sum (List.map_congr_left fun k _ => length_filter_key df k)
    _ = (df.map Obs.key).length := List.sum_map_count_dedup_eq_length _
    _ = df.length := List.length_map _ _

/-- C2: the summary rows partition the observations surviving the
routing-mode filter: the `n` values sum to the number of survivors, and
there is exactly one row per distinct observed key. -/
theorem summarize_partitions (df : List Obs) (rm : String) :
    ((summarize df rm).map (·.n)).sum = (routingFilter df rm).1.length ∧
    ((summarize df rm).map AggRow.key).Nodup ∧
    ∀ k : GroupKey, k ∈ (summarize df rm).map AggRow.key ↔
      ∃ o ∈ (routingFilter df rm).1, o.key = k := by
  refine ⟨groupRows_sum_n _, ?_, fun k => ?_⟩
  · rw [summarize, groupRows_map_key]
    exact (List.perm_insertionSort keyLE _).nodup_iff.mpr (List.nodup_dedup _)
  · rw [summarize, groupRows_map_key,
      (List.perm_insertionSort keyLE _).mem_iff, List.mem_dedup, List.mem_map]
/-- C3: every summary row has `n ≥ 1`, its accuracy is the number of
correct observations in its group divided by `n`, and accuracy lies in
`[0, 1]`. -/
theorem aggRow_invariants (df : List Obs) (rm : String) (r : AggRow)
    (hr : r ∈ summarize df rm) :
    1 ≤ r.n ∧
    r.accuracy =
      (((routingFilter df rm).1.filter (fun o => o.key = r.key)).countP (·.correct) : ℚ)
        / (r.n : ℚ) ∧
    0 ≤ r.accuracy ∧ r.accuracy ≤ 1 := by
  unfold summarize groupRows at hr
  obtain ⟨k, hk, heq⟩ := List.mem_map.mp hr
  have hkmem : k ∈ ((routingFilter df rm).1.map Obs.key) :=
    List.mem_dedup.mp ((List.perm_insertionSort keyLE _).mem_iff.mp hk)
  obtain ⟨o, ho, hko⟩ := List.mem_map.mp hkmem
  have hofilt : o ∈ (routingFilter df rm).1.filter (fun o => o.key = k) :=
    List.mem_filter.mpr ⟨ho, by simp [hko]⟩
  have hlen : 0 < ((routingFilter df rm).1.filter (fun o => o.key = k)).length :=
    List.length_pos.mpr (List.ne_nil_of_mem hofilt)
  have hkey : r.key = k := by
    rw [← heq]; simp [AggRow.key]
  have hn : r.n = ((routingFilter df rm).1.filter (fun o => o.key = k)).length := by
    rw [← heq]
  have hacc : r.accuracy =
      (((routingFilter df rm).1.filter (fun o => o.key = k)).countP (·.correct) : ℚ)
        / (((routingFilter df rm).1.filter (fun o => o.key = k)).length : ℚ) := by
    rw [← heq]
  have h0 : (0:ℚ) < (((routingFilter df rm).1.filter (fun o => o.key = k)).length : ℚ) := by
    exact_mod_cast hlen
  refine ⟨by rw [hn]; exact hlen, ?_, ?_, ?_⟩
  · rw [hkey, hn, hacc]
  · rw [hacc]
    exact div_nonneg (by positivity) h0.le
  · rw [hacc]
    rw [div_le_one h0]
    exact_mod_cast List.countP_le_length _
/-- C3 witness: the spec's worked example — two generalist psk records,
one correct — yields the row with `n = 2`, `accuracy = 1/2`. -/
theorem aggRow_invariants_witness :
    ((⟨"psk", "generalist", "oracle", 2, (1:ℚ)/2⟩ : AggRow) ∈
        summarize [⟨"psk", "generalist", "oracle", true⟩,
                   ⟨"psk", "generalist", "oracle", false⟩] "oracle") ∧
    (1 ≤ (⟨"psk", "generalist", "oracle", 2, (1:ℚ)/2⟩ : AggRow).n ∧
      (⟨"psk", "generalist", "oracle", 2, (1:ℚ)/2⟩ : AggRow).accuracy =
        (((routingFilter [⟨"psk", "generalist", "oracle", true⟩,
              ⟨"psk", "generalist", "oracle", false⟩] "oracle").1.filter
            (fun o => o.key =
              (⟨"psk", "generalist", "oracle", 2, (1:ℚ)/2⟩ : AggRow).key)).countP
          (·.correct) : ℚ) /
          ((⟨"psk", "generalist", "oracle", 2, (1:ℚ)/2⟩ : AggRow).n : ℚ) ∧
      0 ≤ (⟨"psk", "generalist", "oracle", 2, (1:ℚ)/2⟩ : AggRow).accuracy ∧
      (⟨"psk", "generalist", "oracle", 2, (1:ℚ)/2⟩ : AggRow).accuracy ≤ 1) := by
  have hr : (⟨"psk", "generalist", "oracle", 2, (1:ℚ)/2⟩ : AggRow) ∈
      summarize [⟨"psk", "generalist", "oracle", true⟩,
                 ⟨"psk", "generalist", "oracle", false⟩] "oracle" := by
    rw [show summarize [⟨"psk", "generalist", "oracle", true⟩,
          ⟨"psk", "generalist", "oracle", false⟩] "oracle"
        = [⟨"psk", "generalist", "oracle", 2, (1:ℚ)/2⟩] from rfl]
    exact List.mem_singleton.mpr rfl
  exact ⟨hr, aggRow_invariants _ "oracle" _ hr⟩
/-- C4 counterexample: a matching record whose `data.family` is present
but the empty string, with `true_family` `"QAM"`.  Taking family "from
`data.family` or, if absent, `data.true_family`" predicts family `""`;
the code's Python `or` falls through on the falsy present value and
yields `"qam"`. -/
theorem extract_family_falsy_cex :
    (extractOne "s" (.record (.str "s")
        [("family", .str ""), ("true_family", .str "QAM"),
         ("model_role", .str "generalist"), ("correct", .bool true)])).map Obs.family
      = some "qam" ∧ some "qam" ≠ some ("" : String) := by
  constructor
  · rfl
  · decide

/-- C4 (amended): field selection follows Python truthiness, not mere
presence: family is `data.family` when that value is truthy (present and
non-null, non-empty, non-zero, not false), else `data.true_family`; role
likewise from `model_role`/`role`; routing likewise from
`routing_mode`/`routing` with default `"none"` when both are falsy; the
record is dropped exactly when the study mismatches, the chosen family or
role value is `None`, or `correct` is absent or null; kept fields are
stringified and lowercased. -/
theorem extract_normalization (study : String) (st : JVal)
    (data : List (String × JVal)) :
    (∀ o, extractOne study (.record st data) = some o →
      (((jget data "family").truthy →
          o.family = strLower (jget data "family").pyStr) ∧
       (¬ (jget data "family").truthy →
          o.family = strLower (jget data "true_family").pyStr) ∧
       ((jget data "model_role").truthy →
          o.model_role = strLower (jget data "model_role").pyStr) ∧
       (¬ (jget data "model_role").truthy →
          o.model_role = strLower (jget data "role").pyStr) ∧
       ((jget data "routing_mode").truthy →
          o.routing_mode = strLower (jget data "routing_mode").pyStr) ∧
       (¬ (jget data "routing_mode").truthy → (jget data "routing").truthy →
          o.routing_mode = strLower (jget data "routing").pyStr) ∧
       (¬ (jget data "routing_mode").truthy → ¬ (jget data "routing").truthy →
          o.routing_mode = "none") ∧
       o.correct = (jget data "correct").truthy)) ∧
    (extractOne study (.record st data) = none ↔
      (st ≠ .str study ∨
        pyOr (jget data "family") (jget data "true_family") = .null ∨
        pyOr (jget data "model_role") (jget data "role") = .null ∨
        jget data "correct" = .null)) := by
  constructor
  · intro o ho
    simp only [extractOne] at ho
    by_cases hst : st ≠ .str study
    · simp [hst] at ho
    · rw [if_neg hst] at ho
      by_cases hdrop : (pyOr (jget data "family") (jget data "true_family") = .null ∨
          pyOr (jget data "model_role") (jget data "role") = .null ∨
          jget data "correct" = .null)
      · rw [if_pos hdrop] at ho; exact absurd ho (by simp)
      · rw [if_neg hdrop] at ho
        have := Option.some.inj ho
        subst this
        refine ⟨fun h => by simp [pyOr, h], fun h => by simp [pyOr, h],
                fun h => by simp [pyOr, h], fun h => by simp [pyOr, h],
                fun h => by simp [pyOr, h], fun h1 h2 => by simp [pyOr, h1, h2],
                fun h1 h2 => ?_, rfl⟩
        show strLower (pyOr (pyOr (jget data "routing_mode") (jget data "routing"))
            (.str "none")).pyStr = "none"
        simp only [pyOr, h1, h2, Bool.false_eq_true, if_false]
        decide
  · simp only [extractOne]
    by_cases hst : st ≠ .str study
    · simp [hst]
    · rw [if_neg hst]
      by_cases hdrop : (pyOr (jget data "family") (jget data "true_family") = .null ∨
          pyOr (jget data "model_role") (jget data "role") = .null ∨
          jget data "correct" = .null)
      · simp [hdrop, if_pos hdrop]
      · rw [if_neg hdrop]
        push_neg at hst hdrop
        simp [hst, hdrop.1, hdrop.2.1, hdrop.2.2]
/-- Helper: a benign line never crashes, and its outcome mirrors
`extractOne`. -/
theorem rawExtractLines_ofLogLine (study : String) (ls : List LogLine) :
    rawExtractLines study (ls.map RawLine.ofLogLine) = .ok (extractFile study ls) := by
  induction ls with
  | nil => rfl
  | cons l ls ih =>
    cases l with
    | bad =>
      simpa [RawLine.ofLogLine, rawExtractLines, rawExtract, extractFile,
        List.filterMap_cons, extractOne] using ih
    | record st data =>
      simp only [List.map_cons, RawLine.ofLogLine, rawExtractLines, rawExtract,
        extractFile, List.filterMap_cons]
      cases h : extractOne study (.record st data) <;> simp [h, ih, extractFile]

/-- Helper: on a benign corpus the full model agrees with the benign
model. -/
theorem rawLoadMetrics_ofLogLine (files : List (List LogLine)) (study : String) :
    rawLoadMetrics (files.map (List.map RawLine.ofLogLine)) study
      = loadMetrics files study := by
  have hfiles : ∀ fs : List (List LogLine),
      rawExtractFiles study (fs.map (List.map RawLine.ofLogLine))
        = .ok (fs.flatMap (extractFile study)) := by
    intro fs
    induction fs with
    | nil => rfl
    | cons f fs ih =>
      simp [rawExtractFiles, rawExtractLines_ofLogLine, ih, List.flatMap_cons]
  simp [rawLoadMetrics, loadMetrics, hfiles]

/-- Helper: one file's extraction errors exactly when some line of it
crashes. -/
theorem rawExtractLines_error_iff (study : String) (ls : List RawLine) :
    (∃ e, rawExtractLines study ls = .error e)
      ↔ ∃ l ∈ ls, rawExtract study l = .crash := by
  induction ls with
  | nil => simp [rawExtractLines]
  | cons l ls ih =>
    simp only [rawExtractLines]
    cases h : rawExtract study l with
    | crash => simp [h]
    | skip => simp [h, ih]
    | obs o =>
      cases h2 : rawExtractLines study ls with
      | error e =>
        simp only [h2] at ih
        simp [h, ih.mp ⟨e, rfl⟩]
      | ok os =>
        simp only [h2] at ih
        simp [h, ← ih]

/-- Helper: the whole extraction errors exactly when some line of some
file crashes. -/
theorem rawExtractFiles_error_iff (study : String) (files : List (List RawLine)) :
    (∃ e, rawExtractFiles study files = .error e)
      ↔ ∃ f ∈ files, ∃ l ∈ f, rawExtract study l = .crash := by
  induction files with
  | nil => simp [rawExtractFiles]
  | cons f fs ih =>
    simp only [rawExtractFiles]
    cases h : rawExtractLines study f with
    | error e =>
      have hcr := (rawExtractLines_error_iff study f).mp ⟨e, h⟩
      simp [h, hcr]
    | ok xs =>
      have hf : ¬ ∃ l ∈ f, rawExtract study l = .crash := by
        rw [← rawExtractLines_error_iff]
        simp [h]
      cases h2 : rawExtractFiles study fs with
      | error e =>
        simp only [h2] at ih
        simp [h, hf, ih.mp ⟨e, rfl⟩]
      | ok ys =>
        simp only [h2] at ih
        simp [h, hf, ← ih]

/-- C6 counterexample: a corpus with one matched file holding one usable
record and one valid-JSON non-object line.  Neither of the claim's two
fatal conditions holds — a file matched and a usable record exists — yet
the run exits non-zero: `obj.get("study")` on the non-object raises
`AttributeError`. -/
theorem raw_pipeline_attr_cex :
    (∃ e, rawRunPipeline
        [[RawLine.objDict (.str "s")
            [("family", .str "psk"), ("model_role", .str "generalist"),
             ("correct", .bool true)],
          RawLine.nonObject (.int 5)]] "s" "oracle" = .error e) ∧
    ([[RawLine.objDict (.str "s")
        [("family", .str "psk"), ("model_role", .str "generalist"),
         ("correct", .bool true)],
       RawLine.nonObject (.int 5)]] : List (List RawLine)) ≠ [] ∧
    rawExtract "s" (RawLine.objDict (.str "s")
        [("family", .str "psk"), ("model_role", .str "generalist"),
         ("correct", .bool true)])
      = .obs ⟨"psk", "generalist", "none", true⟩ := by
  refine ⟨⟨"AttributeError", rfl⟩, by decide, rfl⟩

/-- C6 (amended): the run exits non-zero exactly when no files match, a
processed line raises `AttributeError` (valid JSON that is not an
object, or a study-matching record whose `data` is present and not an
object), or the extraction completes with zero usable records; in every
other case the run proceeds and exits 0 after writing all four
artifacts. -/
theorem raw_pipeline_fatal_iff (files : List (List RawLine)) (study rm : String) :
    ((∃ e, rawRunPipeline files study rm = .error e)
      ↔ files = [] ∨ (∃ f ∈ files, ∃ l ∈ f, rawExtract study l = .crash) ∨
        rawExtractFiles study files = .ok []) ∧
    (∀ df, rawLoadMetrics files study = .ok df →
        rawRunPipeline files study rm = .ok (renderAll (summarize df rm))) := by
  constructor
  · by_cases h1 : files.isEmpty
    · simp [rawRunPipeline, rawLoadMetrics, h1, List.isEmpty_iff.mp h1]
    · cases h2 : rawExtractFiles study files with
      | error e =>
        have hcr := (rawExtractFiles_error_iff study files).mp ⟨e, h2⟩
        simp [rawRunPipeline, rawLoadMetrics, h1, h2, hcr]
      | ok recs =>
        have hncr : ¬ ∃ f ∈ files, ∃ l ∈ f, rawExtract study l = .crash := by
          rw [← rawExtractFiles_error_iff]
          simp [h2]
        by_cases h3 : recs.isEmpty
        · simp [rawRunPipeline, rawLoadMetrics, h1, h2, h3, hncr,
            List.isEmpty_iff.mp h3, List.isEmpty_iff.not.mp h1]
        · simp [rawRunPipeline, rawLoadMetrics, h1, h2, h3, hncr,
            List.isEmpty_iff.not.mp h1, List.isEmpty_iff.not.mp h3]
  · intro df hdf
    simp [rawRunPipeline, hdf]
